import Mathlib

/-!
A shallow embedding of the PDF-to-Markdown OCR converter
(`pdf_markdown_converter`: `image_handler.py`, `processor.py`, `utils.py`).

Byte buffers are `List Nat` (each entry one byte).  Effectful steps
(file reads and writes, the remote OCR call, Pillow decoding) are modelled
by oracle records (`ImgWorld`, `PdfWorld`) holding the environment's
response to each step: `Except.ok` when the step succeeds, `Except.error msg`
when the Python call would raise an exception carrying message `msg`.
A function returning `Except.error` at the top level models an uncaught
exception propagating to the caller.  File writes that actually happen are
collected in an explicit write log.
-/

namespace PdfMd

/-- Byte-string equality of a signature against the head of a buffer:
Python's `data[i:i+len(sig)] == sig` with `l = data[i:]`. -/
def takeEq (sig l : List Nat) : Bool :=
  l.take sig.length == sig

/-- Python's `bytes.find(sig)` (for a non-empty `sig`): least index at which
`sig` occurs as a contiguous subsequence, `none` when absent. -/
def findFrom (sig : List Nat) : List Nat → Option Nat
  | [] => none
  | l@(_ :: tl) =>
    if takeEq sig l then some 0 else (findFrom sig tl).map (fun k => k + 1)

/-- JPEG start-of-image marker `FF D8 FF` (image_handler.py line 42). -/
def jpegSig : List Nat := [0xFF, 0xD8, 0xFF]

/-- PNG signature `89 50 4E 47 0D 0A 1A 0A` (image_handler.py line 47). -/
def pngSig : List Nat := [0x89, 0x50, 0x4E, 0x47, 0x0D, 0x0A, 0x1A, 0x0A]

/-- GIF signature, ASCII `GIF8` (image_handler.py line 50). -/
def gifSig : List Nat := [0x47, 0x49, 0x46, 0x38]

/-- The explicit JPEG scan loop of `find_image_start`
(`for i in range(len(data) - 2): if data[i:i+3] == b'\xff\xd8\xff'`). -/
def jpegScan (data : List Nat) : Option Nat :=
  (List.range (data.length - 2)).find? (fun i => takeEq jpegSig (data.drop i))

/-- Image formats the sniffer can report: the strings `'jpg'`, `'png'`,
`'gif'` of the source. -/
inductive ImgFormat where
  | jpg
  | png
  | gif
deriving DecidableEq, Repr

/-- Lower-case extension string of a format. -/
def ImgFormat.ext : ImgFormat → String
  | .jpg => "jpg"
  | .png => "png"
  | .gif => "gif"

/-- Python's `img_format.upper()`. -/
def ImgFormat.upperStr : ImgFormat → String
  | .jpg => "JPG"
  | .png => "PNG"
  | .gif => "GIF"

/-- The `valid_starts` list of `ImageHandler.find_image_start`
(image_handler.py lines 53-57): each of the three scans that found an
offset contributes its `(position, format)` pair. -/
def valid_starts (data : List Nat) : List (Nat × ImgFormat) :=
  ([(jpegScan data, ImgFormat.jpg),
    (findFrom pngSig data, ImgFormat.png),
    (findFrom gifSig data, ImgFormat.gif)]).filterMap
    (fun pf => pf.1.map (fun p => (p, pf.2)))

/-- Embeds `ImageHandler.find_image_start` (image_handler.py lines 30-63):
scan for the three signatures and return the pair with the smallest offset
(Python's `min(valid_starts, key=lambda x: x[0])`, which keeps the earliest
listed entry on ties), or `none` when no signature occurs. -/
def find_image_start (data : List Nat) : Option (Nat × ImgFormat) :=
  match valid_starts data with
  | [] => none
  | x :: xs => some (xs.foldl (fun a b => if b.1 < a.1 then b else a) x)

/-- Error message attached to a raised Python exception (`str(e)`). -/
abbrev PyErr : Type := String

/-- The `ImageHandler` configuration (image_handler.py lines 14-28): the
constructor validates `output_format` to one of the three strings and
`jpeg_quality` to 1..100 before any processing runs. -/
structure HandlerConfig where
  output_format : String
  jpeg_quality : Nat
deriving DecidableEq, Repr

/-- A `pathlib.Path` value split as directory plus final component, so that
Python's `path.name` is directly available. -/
structure FPath where
  dir : String
  name : String
deriving DecidableEq, Repr

/-- Python `f"page_{page_index}_figure_{image_index}.{ext}"` joined onto the
output directory. -/
def figurePath (out : String) (page_index image_index : Nat) (ext : String) : FPath :=
  ⟨out, "page_" ++ Nat.repr page_index ++ "_figure_" ++ Nat.repr image_index ++ "." ++ ext⟩

/-- Python `f"page_{page_index}_figure_{image_index}_raw.{img_format}"` joined onto
the output directory (the Pillow-failure fallback name). -/
def rawFigurePath (out : String) (page_index image_index : Nat) (fmt : ImgFormat) : FPath :=
  ⟨out, "page_" ++ Nat.repr page_index ++ "_figure_" ++ Nat.repr image_index ++ "_raw." ++ fmt.ext⟩

/-- A Pillow image as far as this code observes it: its colour `mode`
string and its `(width, height)` size. -/
structure PILImage where
  mode : String
  size : Nat × Nat
deriving DecidableEq, Repr

/-- Python `pil_img.convert('RGB')` (image_handler.py line 107). -/
def pilConvertRGB (img : PILImage) : PILImage :=
  { img with mode := "RGB" }

/-- Payload of one file write: raw bytes (`open(..., "wb").write`), a
Pillow re-encode (`pil_img.save`, with the PIL format string and the JPEG
quality when given), or the combined markdown document. -/
inductive WData where
  | raw (bytes : List Nat)
  | encoded (img : PILImage) (pilFormat : String) (quality : Option Nat)
  | mdFile (pages : List String)
deriving DecidableEq, Repr

/-- One completed file write: destination path and payload. -/
abbrev FileWrite : Type := FPath × WData

/-- The result dict of `ImageHandler.process_image`: keys absent from a
given return statement are `none`. -/
structure ImageResult where
  success : Bool
  path : Option FPath
  size : Option (Nat × Nat)
  fmt : Option String
  error : Option String
deriving DecidableEq, Repr

/-- Environment responses for one `process_image` call, in the order the
steps run: `base64.b64decode`, the `.bin` dump write, `Image.open`,
`pil_img.save`, and the raw-data fallback write. -/
structure ImgWorld where
  decodeResult : Except PyErr (List Nat)
  binWrite : Except PyErr Unit
  pilOpen : Except PyErr PILImage
  saveResult : Except PyErr Unit
  rawWrite : Except PyErr Unit
deriving Repr

/-- The tail of the `except Exception as e:` handler of `process_image`
when `img_start` was never assigned a non-`None` value (either the
exception predates the `find_image_start` call, so the name lookup raises
inside the bare inner `try` and is swallowed, or `img_start is None` and
the guard fails): fall through to `return {'success': False, 'path': None,
'error': str(e)}` (image_handler.py lines 129-148). -/
def imageExceptFallthrough (e : PyErr) : Except PyErr ImageResult × List FileWrite :=
  (Except.ok { success := false, path := none, size := none, fmt := none,
               error := some e }, [])

/-- The `except Exception as e:` handler of `process_image` when
`img_start` is a position (image_handler.py lines 129-148): try to write
the post-offset bytes to the `_raw.{img_format}` path; if that write also
raises, the bare `except: pass` swallows it and the final
`{'success': False, 'path': None, 'error': str(e)}` is returned. -/
def imageExceptHandler (w : ImgWorld) (e : PyErr) (output_path : String)
    (page_index image_index : Nat) (img_format : ImgFormat)
    (clean_data : List Nat) : Except PyErr ImageResult × List FileWrite :=
  match w.rawWrite with
  | .ok _ =>
    let img_path := rawFigurePath output_path page_index image_index img_format
    (Except.ok { success := false, path := some img_path, size := none, fmt := none,
                 error := some ("Pillow processing failed: " ++ e ++ ", saved raw data") },
     [(img_path, WData.raw clean_data)])
  | .error _ => imageExceptFallthrough e

/-- Embeds `ImageHandler.process_image` (image_handler.py lines 65-148).  The pair
holds the call's outcome (`Except.error` would be an uncaught exception)
and the log of file writes it performed. -/
def process_image (cfg : HandlerConfig) (w : ImgWorld) (_image_base64 : String)
    (output_path : String) (page_index image_index : Nat) :
    Except PyErr ImageResult × List FileWrite :=
  match w.decodeResult with
  | .error e => imageExceptFallthrough e
  | .ok img_data =>
    match find_image_start img_data with
    | none =>
      let img_path := figurePath output_path page_index image_index "bin"
      match w.binWrite with
      | .error e => imageExceptFallthrough e
      | .ok _ =>
        (Except.ok { success := false, path := some img_path, size := none, fmt := none,
                     error := some "Could not identify image format" },
         [(img_path, WData.raw img_data)])
    | some (img_start, img_format) =>
      let clean_data := img_data.drop img_start
      match w.pilOpen with
      | .error e =>
        imageExceptHandler w e output_path page_index image_index img_format clean_data
      | .ok pil_img0 =>
        let final_format : String :=
          if cfg.output_format == "original" then img_format.ext
          else if cfg.output_format == "jpg" then "jpg"
          else "png"
        let pil_img :=
          if cfg.output_format == "jpg" &&
             (pil_img0.mode == "RGBA" || pil_img0.mode == "LA" || pil_img0.mode == "P")
          then pilConvertRGB pil_img0 else pil_img0
        let img_path := figurePath output_path page_index image_index final_format
        match w.saveResult with
        | .error e =>
          imageExceptHandler w e output_path page_index image_index img_format clean_data
        | .ok _ =>
          let payload :=
            if final_format == "jpg" then WData.encoded pil_img "JPEG" (some cfg.jpeg_quality)
            else if final_format == "png" then WData.encoded pil_img "PNG" none
            else WData.encoded pil_img img_format.upperStr none
          (Except.ok { success := true, path := some img_path, size := some pil_img.size,
                       fmt := some final_format, error := none },
           [(img_path, payload)])

/-- Python `pathlib.PurePath.name`: the final path component. -/
def pathName (s : String) : String :=
  ((s.splitOn "/").getLast?).getD s

/-- Index of the last `'.'` in a character list, if any. -/
def lastDotIdx (cs : List Char) : Option Nat :=
  match cs.reverse.findIdx? (fun c => c == '.') with
  | none => none
  | some j => some (cs.length - 1 - j)

/-- Python `pathlib.PurePath.stem`: the final component with its last suffix
removed, where a suffix needs a dot that is neither the first nor the last
character of the name. -/
def pathStem (s : String) : String :=
  let name := pathName s
  let cs := name.toList
  match lastDotIdx cs with
  | some idx => if 0 < idx ∧ idx + 1 < cs.length then String.mk (cs.take idx) else name
  | none => name

/-- The whitelist of `sanitize_filename` (utils.py line 19). -/
def safe_chars : List Char :=
  "abcdefghijklmnopqrstuvwxyzABCDEFGHIJKLMNOPQRSTUVWXYZ0123456789-_. ".toList

/-- Embeds `sanitize_filename` (utils.py lines 8-21): keep whitelisted characters
of the stem, replace the rest by `'_'`, truncate to 50 characters, strip
surrounding whitespace. -/
def sanitize_filename (filename : String) : String :=
  let name := pathStem filename
  let sanitized := String.mk (name.toList.map (fun c => if safe_chars.contains c then c else '_'))
  (String.mk (sanitized.toList.take 50)).trim

/-- One image record of an OCR page: the optional base64 payload the
remote service returned (`img.image_base64`, which may be null or empty),
together with the environment's responses for the `process_image` call
that would handle it. -/
structure OcrImage where
  image_base64 : Option String
  world : ImgWorld

/-- Python truthiness test `not img.image_base64`: null or empty string. -/
def emptyB64 : Option String → Bool
  | none => true
  | some s => s == ""

/-- One page of the OCR response: its index, optional markdown text
(`page.markdown` may be null), and its image list. -/
structure OcrPage where
  index : Nat
  markdown : Option String
  images : List OcrImage

/-- The OCR response: an ordered list of pages. -/
structure OcrResult where
  pages : List OcrPage

/-- Environment responses for one `process_pdf` call, in step order:
`pdf_path.stat()` (before the `try`), `pdf_output_dir.mkdir` (before the
`try`), the file read, the OCR call with its elapsed time, and the
combined-markdown write. -/
structure PdfWorld where
  statResult : Except PyErr Nat
  mkdirResult : Except PyErr Unit
  readResult : Except PyErr (List Nat)
  ocrResult : Except PyErr OcrResult
  ocrTime : Nat
  mdWrite : Except PyErr Unit

/-- The summary dict `process_pdf` returns (processor.py lines 126-136 and
142-152). -/
structure PdfSummary where
  pdf_name : String
  pages : Nat
  total_images : Nat
  successful_images : Nat
  failed_images : Nat
  processing_time : Nat
  output_dir : String
  success : Bool
  error : Option String
deriving DecidableEq, Repr

/-- Loop state of the per-page image loop (processor.py lines 71-107):
the page markdown being extended, the page image counter, the `enumerate`
index `i`, the three file-level counters, and the file writes so far. -/
structure ImgAcc where
  md : String
  page_images : Nat
  i : Nat
  total_images : Nat
  successful_images : Nat
  failed_images : Nat
  writes : List FileWrite
deriving DecidableEq, Repr

/-- The markdown reference appended after an image whose result carries a
path (processor.py line 105). -/
def imageLink (page_index n : Nat) (pth : FPath) : String :=
  "\n\n![Figure page " ++ Nat.repr page_index ++ " image " ++ Nat.repr n ++
    "](" ++ pth.name ++ ")\n"

/-- Bookkeeping after one non-skipped image (processor.py lines 93-107):
bump `total_images`, then the success or failure counter, append the
markdown link when a path was produced, bump `page_images` and the
`enumerate` index, and log the writes. -/
def recordResult (page_index : Nat) (st : ImgAcc) (r : ImageResult)
    (ws : List FileWrite) : ImgAcc :=
  let st1 := { st with total_images := st.total_images + 1 }
  let st2 :=
    if r.success then { st1 with successful_images := st1.successful_images + 1 }
    else { st1 with failed_images := st1.failed_images + 1 }
  let st3 :=
    match r.path with
    | some pth => { st2 with md := st2.md ++ imageLink page_index (st.i + 1) pth }
    | none => st2
  { st3 with page_images := st3.page_images + 1, i := st.i + 1,
             writes := st3.writes ++ ws }

/-- The `for i, img in enumerate(page.images)` loop (processor.py lines
82-107): an image with a missing or empty `image_base64` is skipped with
only the `enumerate` index advancing; otherwise `process_image` runs with
`image_index = i + 1` and its outcome is recorded.  A raised exception
(`Except.error`) aborts the loop. -/
def processImages (cfg : HandlerConfig) (out : String) (page_index : Nat) :
    List OcrImage → ImgAcc → Except PyErr ImgAcc
  | [], st => .ok st
  | img :: rest, st =>
    if emptyB64 img.image_base64 then
      processImages cfg out page_index rest { st with i := st.i + 1 }
    else
      match process_image cfg img.world (img.image_base64.getD "") out page_index (st.i + 1) with
      | (.error e, _ws) => .error e
      | (.ok r, ws) => processImages cfg out page_index rest (recordResult page_index st r ws)

/-- Loop state across pages: collected page sections and the file-level
counters and writes. -/
structure PageAcc where
  markdown_pages : List String
  total_images : Nat
  successful_images : Nat
  failed_images : Nat
  writes : List FileWrite
deriving DecidableEq, Repr

/-- Image-loop state at the start of a page: markdown seeded by
`page.markdown or ""`, per-page counters reset, file-level counters
carried over. -/
def initImgAcc (page : OcrPage) (acc : PageAcc) : ImgAcc :=
  { md := page.markdown.getD "", page_images := 0, i := 0,
    total_images := acc.total_images, successful_images := acc.successful_images,
    failed_images := acc.failed_images, writes := acc.writes }

/-- Python `f"## Page {page.index}\n\n{md}"` (processor.py line 112). -/
def pageSection (idx : Nat) (md : String) : String :=
  "## Page " ++ Nat.repr idx ++ "\n\n" ++ md

/-- Fold the finished image-loop state of a page back into the cross-page
state (processor.py line 112 plus the carried counters). -/
def pushPage (page : OcrPage) (acc : PageAcc) (st : ImgAcc) : PageAcc :=
  { markdown_pages := acc.markdown_pages ++ [pageSection page.index st.md],
    total_images := st.total_images, successful_images := st.successful_images,
    failed_images := st.failed_images, writes := st.writes }

/-- The `for page in result.pages` loop (processor.py lines 76-112). -/
def processPages (cfg : HandlerConfig) (out : String) :
    List OcrPage → PageAcc → Except PyErr PageAcc
  | [], acc => .ok acc
  | page :: rest, acc =>
    match processImages cfg out page.index page.images (initImgAcc page acc) with
    | .error e => .error e
    | .ok st => processPages cfg out rest (pushPage page acc st)

/-- Everything one `process_pdf` call produces besides its return value:
the summary dict plus the page sections and file writes it generated. -/
structure PdfRun where
  summary : PdfSummary
  markdown_pages : List String
  writes : List FileWrite
deriving DecidableEq, Repr

/-- The summary built in the `except` clause of `process_pdf`
(processor.py lines 141-152): zeroed counters, `success = False` and the
exception's message as `error`. -/
def errorSummary (pdf_name pdf_output_dir : String) (e : PyErr) : PdfSummary :=
  { pdf_name := pdf_name, pages := 0, total_images := 0, successful_images := 0,
    failed_images := 0, processing_time := 0, output_dir := pdf_output_dir,
    success := false, error := some e }

/-- The body of the `try` block of `process_pdf` (processor.py lines
50-139): read the PDF bytes, call the OCR service, run the page loop,
write the combined markdown (logged with its page sections; the generated
header's timestamp is not modelled), and build the success summary. -/
def process_pdf_try (cfg : HandlerConfig) (w : PdfWorld)
    (pdf_name pdf_output_dir safe_name : String) : Except PyErr PdfRun :=
  match w.readResult with
  | .error e => .error e
  | .ok _pdf_bytes =>
    match w.ocrResult with
    | .error e => .error e
    | .ok ocr =>
      match processPages cfg pdf_output_dir ocr.pages
          { markdown_pages := [], total_images := 0, successful_images := 0,
            failed_images := 0, writes := [] } with
      | .error e => .error e
      | .ok acc =>
        match w.mdWrite with
        | .error e => .error e
        | .ok _ =>
          .ok { summary :=
                  { pdf_name := pdf_name, pages := ocr.pages.length,
                    total_images := acc.total_images,
                    successful_images := acc.successful_images,
                    failed_images := acc.failed_images,
                    processing_time := w.ocrTime, output_dir := pdf_output_dir,
                    success := true, error := none },
                markdown_pages := acc.markdown_pages,
                writes := acc.writes ++
                  [(⟨pdf_output_dir, safe_name ++ "_extracted.md"⟩,
                    WData.mdFile acc.markdown_pages)] }

/-- The guarded part of `process_pdf` with its `except Exception as e:`
clause applied: total, because every exception of the `try` body is
converted into the error summary (processor.py lines 50-154). -/
def process_pdf_run (cfg : HandlerConfig) (w : PdfWorld)
    (pdf_name output_dir : String) : PdfRun :=
  let safe_name := sanitize_filename pdf_name
  let pdf_output_dir := output_dir ++ "/" ++ safe_name
  match process_pdf_try cfg w pdf_name pdf_output_dir safe_name with
  | .ok run => run
  | .error e =>
    { summary := errorSummary pdf_name pdf_output_dir e,
      markdown_pages := [], writes := [] }

/-- Embeds `PDFProcessor.process_pdf` (processor.py lines 29-154).  The
`pdf_path.stat()` call of the size print-out (line 43) and the
`pdf_output_dir.mkdir` call (line 48) run before the `try` block, so their
exceptions propagate to the caller (`Except.error`); everything after is
guarded. -/
def process_pdf (cfg : HandlerConfig) (w : PdfWorld)
    (pdf_name output_dir : String) : Except PyErr PdfRun :=
  match w.statResult with
  | .error e => .error e
  | .ok _size =>
    match w.mkdirResult with
    | .error e => .error e
    | .ok _ => .ok (process_pdf_run cfg w pdf_name output_dir)

/-- One entry of the batch input: the file's name and the environment
responses its `process_pdf` call will see. -/
structure BatchFile where
  name : String
  world : PdfWorld

/-- The dict `process_batch` returns (processor.py lines 223-231),
without the wall-clock `total_time`. -/
structure BatchSummary where
  total_files : Nat
  successful : Nat
  failed : Nat
  total_pages : Nat
  total_images : Nat
  results : List PdfSummary
deriving DecidableEq, Repr

/-- Observable timeline events of a batch run: a `process_pdf` call on a
named file, or a `time.sleep(delay)`. -/
inductive BatchEvent where
  | processed (name : String)
  | slept (delay : Nat)
deriving DecidableEq, Repr

/-- The `BatchEvent.slept` recogniser. -/
def isSlept : BatchEvent → Bool
  | .slept _ => true
  | .processed _ => false

/-- Modelled from the spec's words for comparison with the loop's actual
trace: process each file in order with one inter-file delay between
consecutive files and none after the last. -/
def seqTrace (delay : Nat) : List String → List BatchEvent
  | [] => []
  | [n] => [BatchEvent.processed n]
  | n :: m :: rest =>
    BatchEvent.processed n :: BatchEvent.slept delay :: seqTrace delay (m :: rest)

/-- The `for i, pdf_path in enumerate(pdf_files, 1)` loop of
`process_batch` (processor.py lines 176-184): process each file in order,
append its summary, and sleep the delay after it iff it is not the last
file (`if i < len(pdf_files)`).  An exception raised by `process_pdf`
propagates and aborts the batch. -/
def batchLoop (cfg : HandlerConfig) (out : String) (delay : Nat) :
    List BatchFile → Except PyErr (List PdfSummary × List BatchEvent)
  | [] => .ok ([], [])
  | f :: rest =>
    match process_pdf cfg f.world f.name out with
    | .error e => .error e
    | .ok run =>
      match rest with
      | [] => .ok ([run.summary], [BatchEvent.processed f.name])
      | _ :: _ =>
        match batchLoop cfg out delay rest with
        | .error e => .error e
        | .ok (rs, evs) =>
          .ok (run.summary :: rs,
               BatchEvent.processed f.name :: BatchEvent.slept delay :: evs)

/-- The aggregation after the loop (processor.py lines 188-192 and
223-231): `successful`/`failed` partition the results by their `success`
flag, `total_pages` sums `pages` and `total_images` sums
`successful_images` over the successful partition only. -/
def batchAggregate (results : List PdfSummary) : BatchSummary :=
  let successful := results.filter (fun r => r.success)
  let failed := results.filter (fun r => !r.success)
  { total_files := results.length,
    successful := successful.length,
    failed := failed.length,
    total_pages := (successful.map (fun r => r.pages)).sum,
    total_images := (successful.map (fun r => r.successful_images)).sum,
    results := results }

/-- Embeds `PDFProcessor.process_batch` (processor.py lines 156-231): create the
output directory (uncaught on failure), run the sequential loop, then
aggregate. -/
def process_batch (cfg : HandlerConfig) (mkOut : Except PyErr Unit)
    (pdf_files : List BatchFile) (out : String) (delay : Nat) :
    Except PyErr (BatchSummary × List BatchEvent) :=
  match mkOut with
  | .error e => .error e
  | .ok _ =>
    match batchLoop cfg out delay pdf_files with
    | .error e => .error e
    | .ok (results, evs) => .ok (batchAggregate results, evs)

/-- No signature occurrence begins at offset `j` of `data`. -/
def sigFreeAt (data : List Nat) (j : Nat) : Bool :=
  !takeEq jpegSig (data.drop j) && !takeEq pngSig (data.drop j) && !takeEq gifSig (data.drop j)

/-! ### Lemmas about the signature scans -/

theorem range_find_eq_none (p : Nat → Bool) (n : Nat)
    (h : ∀ j < n, p j = false) : (List.range n).find? p = none := by
  induction n with
  | zero => rfl
  | succ m ih =>
    rw [List.range_succ, List.find?_append, ih (fun j hj => h j (Nat.lt_succ_of_lt hj))]
    simp [h m (Nat.lt_succ_self m)]

theorem range_find_eq_some (p : Nat → Bool) (n k : Nat) (hk : p k = true)
    (hmin : ∀ j < k, p j = false) (hn : k < n) : (List.range n).find? p = some k := by
  induction n with
  | zero => exact absurd hn (Nat.not_lt_zero k)
  | succ m ih =>
    rw [List.range_succ, List.find?_append]
    rcases Nat.lt_or_ge k m with h | h
    · rw [ih h]; rfl
    · have hkm : k = m := Nat.le_antisymm (Nat.lt_succ_iff.mp hn) h
      subst hkm
      rw [range_find_eq_none p k hmin]
      simp [hk]

theorem takeEq_length {sig l : List Nat} (h : takeEq sig l = true) :
    sig.length ≤ l.length := by
  have he : l.take sig.length = sig := by
    simpa [takeEq] using h
  have := congrArg List.length he
  simp [List.length_take] at this
  omega

theorem findFrom_eq_none (sig : List Nat) (l : List Nat)
    (h : ∀ j < l.length, takeEq sig (l.drop j) = false) : findFrom sig l = none := by
  induction l with
  | nil => rfl
  | cons d tl ih =>
    have h0 : takeEq sig (d :: tl) = false := by
      simpa using h 0 (Nat.succ_pos tl.length)
    rw [findFrom, if_neg (by simp [h0])]
    have : findFrom sig tl = none := by
      refine ih (fun j hj => ?_)
      simpa using h (j + 1) (Nat.succ_lt_succ hj)
    rw [this]
    rfl

theorem findFrom_eq_some (sig : List Nat) (l : List Nat) (k : Nat)
    (hk : takeEq sig (l.drop k) = true)
    (hmin : ∀ j < k, takeEq sig (l.drop j) = false)
    (hlen : k < l.length) : findFrom sig l = some k := by
  induction l generalizing k with
  | nil => exact absurd hlen (Nat.not_lt_zero k)
  | cons d tl ih =>
    cases k with
    | zero =>
      rw [findFrom, if_pos (by simpa using hk)]
    | succ k' =>
      have h0 : takeEq sig (d :: tl) = false := by
        simpa using hmin 0 (Nat.succ_pos k')
      rw [findFrom, if_neg (by simp [h0])]
      have : findFrom sig tl = some k' := by
        refine ih k' (by simpa using hk) (fun j hj => ?_) (Nat.lt_of_succ_lt_succ hlen)
        simpa using hmin (j + 1) (Nat.succ_lt_succ hj)
      rw [this]
      rfl

/-- The fold implementing Python's `min(..., key=lambda x: x[0])` returns
an element of the list whose first component is minimal. -/
theorem foldl_min_spec (x : Nat × ImgFormat) (xs : List (Nat × ImgFormat)) :
    (xs.foldl (fun a b => if b.1 < a.1 then b else a) x) ∈ x :: xs ∧
      ∀ y ∈ x :: xs,
        (xs.foldl (fun a b => if b.1 < a.1 then b else a) x).1 ≤ y.1 := by
  induction xs generalizing x with
  | nil =>
    refine ⟨List.mem_singleton.mpr rfl, ?_⟩
    intro y hy
    rw [List.mem_singleton.mp hy]
    exact Nat.le_refl _
  | cons b bs ih =>
    have hfold : ((b :: bs).foldl (fun a c => if c.1 < a.1 then c else a) x) =
        (bs.foldl (fun a c => if c.1 < a.1 then c else a) (if b.1 < x.1 then b else x)) := rfl
    obtain ⟨hmem, hle⟩ := ih (if b.1 < x.1 then b else x)
    constructor
    · rw [hfold]
      rcases List.mem_cons.mp hmem with h | h
      · rw [h]
        by_cases hb : b.1 < x.1
        · simp only [if_pos hb]
          exact List.mem_cons_of_mem x (List.mem_cons_self b bs)
        · simp only [if_neg hb]
          exact List.mem_cons_self x (b :: bs)
      · exact List.mem_cons_of_mem x (List.mem_cons_of_mem b h)
    · intro y hy
      rw [hfold]
      have hhead : (bs.foldl (fun a c => if c.1 < a.1 then c else a)
          (if b.1 < x.1 then b else x)).1 ≤ (if b.1 < x.1 then b else x).1 :=
        hle _ (List.mem_cons_self _ bs)
      rcases List.mem_cons.mp hy with h | h
      · rw [h]
        refine le_trans hhead ?_
        by_cases hb : b.1 < x.1
        · rw [if_pos hb]; omega
        · rw [if_neg hb]
      · rcases List.mem_cons.mp h with h2 | h2
        · rw [h2]
          refine le_trans hhead ?_
          by_cases hb : b.1 < x.1
          · rw [if_pos hb]
          · rw [if_neg hb]; omega
        · exact hle y (List.mem_cons_of_mem _ h2)

theorem sigFreeAt_jpeg {data : List Nat} {j : Nat} (h : sigFreeAt data j = true) :
    takeEq jpegSig (data.drop j) = false := by
  simp only [sigFreeAt, Bool.and_eq_true, Bool.not_eq_true'] at h
  exact h.1.1

theorem sigFreeAt_png {data : List Nat} {j : Nat} (h : sigFreeAt data j = true) :
    takeEq pngSig (data.drop j) = false := by
  simp only [sigFreeAt, Bool.and_eq_true, Bool.not_eq_true'] at h
  exact h.1.2

theorem sigFreeAt_gif {data : List Nat} {j : Nat} (h : sigFreeAt data j = true) :
    takeEq gifSig (data.drop j) = false := by
  simp only [sigFreeAt, Bool.and_eq_true, Bool.not_eq_true'] at h
  exact h.2

/-- A buffer free of all three signatures defeats every scan. -/
theorem find_image_start_eq_none_of_sigFree (data : List Nat)
    (h : ∀ j < data.length, sigFreeAt data j = true) :
    find_image_start data = none := by
  have hj : jpegScan data = none := by
    refine range_find_eq_none _ _ (fun j hj => ?_)
    exact sigFreeAt_jpeg (h j (Nat.lt_of_lt_of_le hj (Nat.sub_le data.length 2)))
  have hp : findFrom pngSig data = none :=
    findFrom_eq_none _ _ (fun j hjl => sigFreeAt_png (h j hjl))
  have hg : findFrom gifSig data = none :=
    findFrom_eq_none _ _ (fun j hjl => sigFreeAt_gif (h j hjl))
  simp [find_image_start, valid_starts, hj, hp, hg]

/-- C3 (corrected): the claim quantifies over arbitrary leading bytes, but
the code returns the earliest signature of any format, so leading bytes
that themselves contain a signature defeat it.  Four leading bytes spelling
`GIF8` followed by the JPEG marker make `find_image_start` return
`(0, gif)`, not `(4, jpg)` as the claim states. -/
theorem claim3_cex :
    [0x47, 0x49, 0x46, 0x38].length = 4 ∧
      find_image_start ([0x47, 0x49, 0x46, 0x38] ++ jpegSig) = some (0, ImgFormat.gif) ∧
      find_image_start ([0x47, 0x49, 0x46, 0x38] ++ jpegSig) ≠ some (4, ImgFormat.jpg) := by
  refine ⟨rfl, by decide, by decide⟩

/-- C3 (amended): for every byte buffer consisting of N leading bytes
followed by the JPEG marker FF D8 FF, provided no occurrence of any of the
three signatures begins within the leading N bytes, `find_image_start`
returns `(N, jpg)`. -/
theorem claim3_locate_jpeg_after_clean_garbage (g : List Nat)
    (h : ∀ j < g.length, sigFreeAt (g ++ jpegSig) j = true) :
    find_image_start (g ++ jpegSig) = some (g.length, ImgFormat.jpg) := by
  have hlen : (g ++ jpegSig).length = g.length + 3 := by
    simp [jpegSig]
  have hdropN : (g ++ jpegSig).drop g.length = jpegSig := List.drop_left g jpegSig
  have hj : jpegScan (g ++ jpegSig) = some g.length := by
    refine range_find_eq_some _ _ _ ?_ ?_ ?_
    · rw [hdropN]
      decide
    · exact fun j hj => sigFreeAt_jpeg (h j hj)
    · omega
  have hp : findFrom pngSig (g ++ jpegSig) = none := by
    refine findFrom_eq_none _ _ (fun j hjl => ?_)
    rcases Nat.lt_or_ge j g.length with hlt | hge
    · exact sigFreeAt_png (h j hlt)
    · cases hq : takeEq pngSig ((g ++ jpegSig).drop j) with
      | false => rfl
      | true =>
        have h8 : pngSig.length ≤ ((g ++ jpegSig).drop j).length := takeEq_length hq
        rw [List.length_drop] at h8
        have : pngSig.length = 8 := rfl
        omega
  have hg : findFrom gifSig (g ++ jpegSig) = none := by
    refine findFrom_eq_none _ _ (fun j hjl => ?_)
    rcases Nat.lt_or_ge j g.length with hlt | hge
    · exact sigFreeAt_gif (h j hlt)
    · cases hq : takeEq gifSig ((g ++ jpegSig).drop j) with
      | false => rfl
      | true =>
        have h4 : gifSig.length ≤ ((g ++ jpegSig).drop j).length := takeEq_length hq
        rw [List.length_drop] at h4
        have : gifSig.length = 4 := rfl
        omega
  simp [find_image_start, valid_starts, hj, hp, hg]

/-- C3 witness: three signature-free junk bytes before the marker give
offset 3 and format jpg. -/
theorem claim3_witness :
    (∀ j < ([0, 1, 2] : List Nat).length, sigFreeAt ([0, 1, 2] ++ jpegSig) j = true) ∧
      find_image_start ([0, 1, 2] ++ jpegSig) = some (3, ImgFormat.jpg) :=
  ⟨by decide, claim3_locate_jpeg_after_clean_garbage [0, 1, 2] (by decide)⟩

/-- C4 (confirmed): whenever more than one signature occurs in the buffer
(`valid_starts` has at least two entries), `find_image_start` returns an
entry of `valid_starts` — a first-occurrence offset with its format — whose
offset is minimal among all of them, regardless of format. -/
theorem claim4_earliest_signature_wins (data : List Nat)
    (h2 : 2 ≤ (valid_starts data).length) :
    ∃ pf, find_image_start data = some pf ∧ pf ∈ valid_starts data ∧
      ∀ q ∈ valid_starts data, pf.1 ≤ q.1 := by
  cases hv : valid_starts data with
  | nil => rw [hv] at h2; exact absurd h2 (by decide)
  | cons x xs =>
    obtain ⟨hmem, hle⟩ := foldl_min_spec x xs
    refine ⟨xs.foldl (fun a b => if b.1 < a.1 then b else a) x, ?_, ?_, ?_⟩
    · simp [find_image_start, hv]
    · exact hmem
    · exact hle

/-- C4 witness: a buffer with the PNG signature first occurring at offset
10 and the GIF signature first occurring at offset 3 yields `(3, gif)`. -/
theorem claim4_witness :
    (2 ≤ (valid_starts ([0, 0, 0, 0x47, 0x49, 0x46, 0x38, 0, 0, 0] ++ pngSig)).length ∧
      ∃ pf, find_image_start ([0, 0, 0, 0x47, 0x49, 0x46, 0x38, 0, 0, 0] ++ pngSig) = some pf ∧
        pf ∈ valid_starts ([0, 0, 0, 0x47, 0x49, 0x46, 0x38, 0, 0, 0] ++ pngSig) ∧
        ∀ q ∈ valid_starts ([0, 0, 0, 0x47, 0x49, 0x46, 0x38, 0, 0, 0] ++ pngSig), pf.1 ≤ q.1) ∧
      find_image_start ([0, 0, 0, 0x47, 0x49, 0x46, 0x38, 0, 0, 0] ++ pngSig) =
        some (3, ImgFormat.gif) :=
  ⟨⟨by decide, claim4_earliest_signature_wins _ (by decide)⟩, by decide⟩

/-! ### Claims about process_image -/

theorem fallthrough_spec (e : PyErr) :
    ∃ r ws, imageExceptFallthrough e = (Except.ok r, ws) ∧
      (r.success = false → r.error.isSome = true) :=
  ⟨_, _, rfl, fun _ => rfl⟩

theorem handler_spec (w : ImgWorld) (e : PyErr) (out : String) (p i : Nat)
    (fmt : ImgFormat) (cd : List Nat) :
    ∃ r ws, imageExceptHandler w e out p i fmt cd = (Except.ok r, ws) ∧
      (r.success = false → r.error.isSome = true) := by
  unfold imageExceptHandler
  cases w.rawWrite with
  | ok u => exact ⟨_, _, rfl, fun _ => rfl⟩
  | error e2 => exact fallthrough_spec e

/-- C5 (confirmed): `process_image` never raises to its caller — for every
configuration, environment response and input it returns `Except.ok` with
a result record, and every failure result carries an error message. -/
theorem claim5_process_image_total (cfg : HandlerConfig) (w : ImgWorld)
    (image_base64 out : String) (page_index image_index : Nat) :
    ∃ r ws, process_image cfg w image_base64 out page_index image_index =
        (Except.ok r, ws) ∧ (r.success = false → r.error.isSome = true) := by
  cases hd : w.decodeResult with
  | error e =>
    simp only [process_image, hd]
    exact fallthrough_spec e
  | ok img_data =>
    cases hf : find_image_start img_data with
    | none =>
      cases hb : w.binWrite with
      | error e =>
        simp only [process_image, hd, hf, hb]
        exact fallthrough_spec e
      | ok u =>
        simp only [process_image, hd, hf, hb]
        exact ⟨_, _, rfl, fun _ => rfl⟩
    | some pf =>
      obtain ⟨img_start, img_format⟩ := pf
      cases hp : w.pilOpen with
      | error e =>
        simp only [process_image, hd, hf, hp]
        exact handler_spec w e out page_index image_index img_format (img_data.drop img_start)
      | ok pil0 =>
        cases hs : w.saveResult with
        | error e =>
          simp only [process_image, hd, hf, hp, hs]
          exact handler_spec w e out page_index image_index img_format (img_data.drop img_start)
        | ok u =>
          simp only [process_image, hd, hf, hp, hs]
          exact ⟨_, _, rfl, fun hfalse => Bool.noConfusion hfalse⟩

/-- C7 (confirmed): on decoded data containing none of the three
signatures, `find_image_start` reports `none`, and `process_image`
(with the dump write succeeding) writes the undecoded bytes to
`page_{P}_figure_{I}.bin` and returns failure with error
"Could not identify image format". -/
theorem claim7_unrecognized_signature_bin_dump (cfg : HandlerConfig) (w : ImgWorld)
    (image_base64 out : String) (page_index image_index : Nat) (data : List Nat)
    (hd : w.decodeResult = Except.ok data)
    (hfree : ∀ j < data.length, sigFreeAt data j = true)
    (hbw : w.binWrite = Except.ok ()) :
    find_image_start data = none ∧
      process_image cfg w image_base64 out page_index image_index =
        (Except.ok { success := false,
                     path := some (figurePath out page_index image_index "bin"),
                     size := none, fmt := none,
                     error := some "Could not identify image format" },
         [(figurePath out page_index image_index "bin", WData.raw data)]) := by
  have hn := find_image_start_eq_none_of_sigFree data hfree
  refine ⟨hn, ?_⟩
  simp only [process_image, hd, hn, hbw]

/-- C7 witness: the two-byte buffer `[0, 0]` has no signature; with the
dump write succeeding the `.bin` result is produced. -/
theorem claim7_witness :
    find_image_start [0, 0] = none ∧
      process_image ⟨"original", 95⟩
          ⟨Except.ok [0, 0], Except.ok (), Except.ok ⟨"RGB", (1, 1)⟩,
           Except.ok (), Except.ok ()⟩ "AAA=" "out/doc" 1 1 =
        (Except.ok { success := false,
                     path := some (figurePath "out/doc" 1 1 "bin"),
                     size := none, fmt := none,
                     error := some "Could not identify image format" },
         [(figurePath "out/doc" 1 1 "bin", WData.raw [0, 0])]) :=
  claim7_unrecognized_signature_bin_dump ⟨"original", 95⟩
    ⟨Except.ok [0, 0], Except.ok (), Except.ok ⟨"RGB", (1, 1)⟩, Except.ok (), Except.ok ()⟩
    "AAA=" "out/doc" 1 1 [0, 0] rfl (by decide) rfl

/-- C8 (confirmed): when the base64 decode raises, `process_image` returns
failure with `path = None` and the decode error's message verbatim, and
performs no file write. -/
theorem claim8_invalid_base64_no_write (cfg : HandlerConfig) (w : ImgWorld)
    (image_base64 out : String) (page_index image_index : Nat) (e : PyErr)
    (hd : w.decodeResult = Except.error e) :
    process_image cfg w image_base64 out page_index image_index =
      (Except.ok { success := false, path := none, size := none, fmt := none,
                   error := some e }, []) := by
  unfold process_image
  rw [hd]
  rfl

/-- C8 witness: a decode failure with a concrete binascii message. -/
theorem claim8_witness :
    process_image ⟨"original", 95⟩
        ⟨Except.error "Invalid base64-encoded string", Except.ok (),
         Except.ok ⟨"RGB", (1, 1)⟩, Except.ok (), Except.ok ()⟩
        "%%%" "out/doc" 1 1 =
      (Except.ok { success := false, path := none, size := none, fmt := none,
                   error := some "Invalid base64-encoded string" }, []) :=
  claim8_invalid_base64_no_write ⟨"original", 95⟩
    ⟨Except.error "Invalid base64-encoded string", Except.ok (),
     Except.ok ⟨"RGB", (1, 1)⟩, Except.ok (), Except.ok ()⟩
    "%%%" "out/doc" 1 1 "Invalid base64-encoded string" rfl

/-! ### Claims about process_pdf -/

theorem process_pdf_try_ok (cfg : HandlerConfig) (w : PdfWorld)
    (a b c : String) (run : PdfRun) (h : process_pdf_try cfg w a b c = Except.ok run) :
    run.summary.success = true ∧ run.summary.error = none := by
  unfold process_pdf_try at h
  split at h
  · exact Except.noConfusion h
  · split at h
    · exact Except.noConfusion h
    · split at h
      · exact Except.noConfusion h
      · split at h
        · exact Except.noConfusion h
        · cases h
          exact ⟨rfl, rfl⟩

/-- C1 (corrected, counterexample): `process_pdf` prints the input file's
size with `pdf_path.stat()` before entering its `try` block, so a
`stat` failure (for instance a nonexistent path) propagates to the caller
instead of being converted into a failure summary. -/
theorem claim1_cex :
    process_pdf ⟨"original", 95⟩
        ⟨Except.error "FileNotFoundError: no.pdf", Except.ok (), Except.ok [],
         Except.ok ⟨[]⟩, 0, Except.ok ()⟩ "no.pdf" "out" =
      Except.error "FileNotFoundError: no.pdf" := rfl

/-- C1 (amended): provided the two pre-`try` steps — the `stat` of the
input path and the creation of the output directory — succeed,
`process_pdf` never raises: it returns a summary that is either a success
with no error or a failure carrying an error message, and whenever the
guarded pipeline (read/encode, OCR call, per-image processing, markdown
write) raises an exception `e`, the returned summary is exactly
`errorSummary pdf_name pdf_output_dir e` — `success := false` with that
exception's message as the `error` field. -/
theorem claim1_process_pdf_catches_guarded (cfg : HandlerConfig) (w : PdfWorld)
    (pdf_name output_dir : String) (n : Nat)
    (h1 : w.statResult = Except.ok n) (h2 : w.mkdirResult = Except.ok ()) :
    ∃ run, process_pdf cfg w pdf_name output_dir = Except.ok run ∧
      ((run.summary.success = true ∧ run.summary.error = none) ∨
        (run.summary.success = false ∧ ∃ m, run.summary.error = some m)) ∧
      (∀ e, process_pdf_try cfg w pdf_name
          (output_dir ++ "/" ++ sanitize_filename pdf_name)
          (sanitize_filename pdf_name) = Except.error e →
        run.summary = errorSummary pdf_name
          (output_dir ++ "/" ++ sanitize_filename pdf_name) e) := by
  refine ⟨process_pdf_run cfg w pdf_name output_dir,
    by simp only [process_pdf, h1, h2], ?_⟩
  cases ht : process_pdf_try cfg w pdf_name
      (output_dir ++ "/" ++ sanitize_filename pdf_name) (sanitize_filename pdf_name) with
  | ok run =>
    obtain ⟨hs, he⟩ := process_pdf_try_ok cfg w pdf_name _ _ run ht
    constructor
    · simp only [process_pdf_run, ht]
      exact Or.inl ⟨hs, he⟩
    · intro e he2
      exact Except.noConfusion he2
  | error e =>
    constructor
    · simp only [process_pdf_run, ht]
      exact Or.inr ⟨rfl, e, rfl⟩
    · intro e2 he2
      cases he2
      simp only [process_pdf_run, ht]

/-- C1 witness: with the pre-`try` steps succeeding but the OCR call
raising "429 rate limited", the call returns a summary, and the
summary for that guarded-pipeline exception is the error summary
carrying that exact message. -/
theorem claim1_witness :
    (∃ run,
      process_pdf ⟨"original", 95⟩
          ⟨Except.ok 100, Except.ok (), Except.ok [1],
           Except.error "429 rate limited", 0, Except.ok ()⟩ "x.pdf" "out" =
        Except.ok run ∧
      ((run.summary.success = true ∧ run.summary.error = none) ∨
        (run.summary.success = false ∧ ∃ m, run.summary.error = some m)) ∧
      (∀ e, process_pdf_try ⟨"original", 95⟩
          ⟨Except.ok 100, Except.ok (), Except.ok [1],
           Except.error "429 rate limited", 0, Except.ok ()⟩ "x.pdf"
          ("out" ++ "/" ++ sanitize_filename "x.pdf")
          (sanitize_filename "x.pdf") = Except.error e →
        run.summary = errorSummary "x.pdf"
          ("out" ++ "/" ++ sanitize_filename "x.pdf") e)) ∧
    process_pdf_try ⟨"original", 95⟩
        ⟨Except.ok 100, Except.ok (), Except.ok [1],
         Except.error "429 rate limited", 0, Except.ok ()⟩ "x.pdf"
        ("out" ++ "/" ++ sanitize_filename "x.pdf")
        (sanitize_filename "x.pdf") = Except.error "429 rate limited" :=
  ⟨claim1_process_pdf_catches_guarded ⟨"original", 95⟩
    ⟨Except.ok 100, Except.ok (), Except.ok [1],
     Except.error "429 rate limited", 0, Except.ok ()⟩ "x.pdf" "out" 100 rfl rfl, rfl⟩

theorem recordResult_inv (page_index : Nat) (st : ImgAcc) (r : ImageResult)
    (ws : List FileWrite)
    (h : st.successful_images + st.failed_images = st.total_images) :
    (recordResult page_index st r ws).successful_images +
        (recordResult page_index st r ws).failed_images =
      (recordResult page_index st r ws).total_images := by
  cases hs : r.success <;> cases hp : r.path <;>
    simp only [recordResult, hs, hp] <;> simp <;> omega

theorem processImages_inv (cfg : HandlerConfig) (out : String) (page_index : Nat)
    (imgs : List OcrImage) :
    ∀ (st st' : ImgAcc), processImages cfg out page_index imgs st = Except.ok st' →
      st.successful_images + st.failed_images = st.total_images →
      st'.successful_images + st'.failed_images = st'.total_images := by
  induction imgs with
  | nil =>
    intro st st' h hinv
    cases h
    exact hinv
  | cons img rest ih =>
    intro st st' h hinv
    rw [processImages] at h
    split at h
    · exact ih _ _ h hinv
    · split at h
      · exact Except.noConfusion h
      · rename_i r ws heq
        exact ih _ _ h (recordResult_inv page_index st r ws hinv)

theorem processPages_inv (cfg : HandlerConfig) (out : String)
    (pages : List OcrPage) :
    ∀ (acc acc' : PageAcc), processPages cfg out pages acc = Except.ok acc' →
      acc.successful_images + acc.failed_images = acc.total_images →
      acc'.successful_images + acc'.failed_images = acc'.total_images := by
  induction pages with
  | nil =>
    intro acc acc' h hinv
    cases h
    exact hinv
  | cons page rest ih =>
    intro acc acc' h hinv
    rw [processPages] at h
    split at h
    · exact Except.noConfusion h
    · rename_i st heq
      have hst := processImages_inv cfg out page.index page.images
        (initImgAcc page acc) st heq hinv
      exact ih _ _ h hst

theorem process_pdf_try_inv (cfg : HandlerConfig) (w : PdfWorld)
    (a b c : String) (run : PdfRun) (h : process_pdf_try cfg w a b c = Except.ok run) :
    run.summary.successful_images + run.summary.failed_images =
      run.summary.total_images := by
  cases hr : w.readResult with
  | error e => simp [process_pdf_try, hr] at h
  | ok pb =>
    cases ho : w.ocrResult with
    | error e => simp [process_pdf_try, hr, ho] at h
    | ok ocr =>
      cases hp : processPages cfg b ocr.pages
          { markdown_pages := [], total_images := 0, successful_images := 0,
            failed_images := 0, writes := [] } with
      | error e => simp [process_pdf_try, hr, ho, hp] at h
      | ok acc =>
        cases hm : w.mdWrite with
        | error e => simp [process_pdf_try, hr, ho, hp, hm] at h
        | ok u =>
          simp only [process_pdf_try, hr, ho, hp, hm, Except.ok.injEq] at h
          subst h
          exact processPages_inv cfg b ocr.pages _ acc hp rfl

/-- C6 (confirmed): every summary `process_pdf` returns — the success
summary built from the loop counters as well as the `except`-clause
failure summary — satisfies
`successful_images + failed_images = total_images`. -/
theorem claim6_pdf_summary_image_count_invariant (cfg : HandlerConfig)
    (w : PdfWorld) (pdf_name output_dir : String) (run : PdfRun)
    (h : process_pdf cfg w pdf_name output_dir = Except.ok run) :
    run.summary.successful_images + run.summary.failed_images =
      run.summary.total_images := by
  unfold process_pdf at h
  split at h
  · exact Except.noConfusion h
  · split at h
    · exact Except.noConfusion h
    · cases h
      cases ht : process_pdf_try cfg w pdf_name
          (output_dir ++ "/" ++ sanitize_filename pdf_name) (sanitize_filename pdf_name) with
      | error e => simp only [process_pdf_run, ht]; rfl
      | ok run2 =>
        simp only [process_pdf_run, ht]
        exact process_pdf_try_inv cfg w pdf_name _ _ run2 ht

/-- C6 witness: a file whose single image fails processing yields
`0 + 1 = 1`. -/
theorem claim6_witness :
    (process_pdf_run ⟨"original", 95⟩
          ⟨Except.ok 100, Except.ok (), Except.ok [1],
           Except.ok ⟨[⟨1, some "text",
             [⟨some "AAA=", ⟨Except.ok [0, 0], Except.ok (),
               Except.ok ⟨"RGB", (1, 1)⟩, Except.ok (), Except.ok ()⟩⟩]⟩]⟩,
           3, Except.ok ()⟩ "doc.pdf" "out").summary.successful_images +
        (process_pdf_run ⟨"original", 95⟩
          ⟨Except.ok 100, Except.ok (), Except.ok [1],
           Except.ok ⟨[⟨1, some "text",
             [⟨some "AAA=", ⟨Except.ok [0, 0], Except.ok (),
               Except.ok ⟨"RGB", (1, 1)⟩, Except.ok (), Except.ok ()⟩⟩]⟩]⟩,
           3, Except.ok ()⟩ "doc.pdf" "out").summary.failed_images =
      (process_pdf_run ⟨"original", 95⟩
          ⟨Except.ok 100, Except.ok (), Except.ok [1],
           Except.ok ⟨[⟨1, some "text",
             [⟨some "AAA=", ⟨Except.ok [0, 0], Except.ok (),
               Except.ok ⟨"RGB", (1, 1)⟩, Except.ok (), Except.ok ()⟩⟩]⟩]⟩,
           3, Except.ok ()⟩ "doc.pdf" "out").summary.total_images :=
  claim6_pdf_summary_image_count_invariant ⟨"original", 95⟩
    ⟨Except.ok 100, Except.ok (), Except.ok [1],
     Except.ok ⟨[⟨1, some "text",
       [⟨some "AAA=", ⟨Except.ok [0, 0], Except.ok (),
         Except.ok ⟨"RGB", (1, 1)⟩, Except.ok (), Except.ok ()⟩⟩]⟩]⟩,
     3, Except.ok ()⟩ "doc.pdf" "out" _ rfl

/-- C10 (confirmed): an OCR image whose `image_base64` is missing or empty
is skipped entirely by the page loop: the step on it leaves the
accumulator — counters, page markdown, write log, per-page image count —
untouched except for the `enumerate` index, so it is never handed to
`process_image`, contributes to no count, produces no file and no
markdown reference. -/
theorem claim10_empty_base64_skipped (cfg : HandlerConfig) (out : String)
    (page_index : Nat) (img : OcrImage) (rest : List OcrImage) (st : ImgAcc)
    (h : emptyB64 img.image_base64 = true) :
    processImages cfg out page_index (img :: rest) st =
      processImages cfg out page_index rest { st with i := st.i + 1 } := by
  rw [processImages, if_pos h]

/-- C10 witness: a page whose single image has an empty payload is
processed exactly like the empty page with the index advanced. -/
theorem claim10_witness :
    processImages ⟨"original", 95⟩ "out/doc" 1
        [⟨some "", ⟨Except.ok [], Except.ok (), Except.ok ⟨"RGB", (1, 1)⟩,
          Except.ok (), Except.ok ()⟩⟩]
        ⟨"text", 0, 0, 0, 0, 0, []⟩ =
      processImages ⟨"original", 95⟩ "out/doc" 1 []
        { (⟨"text", 0, 0, 0, 0, 0, []⟩ : ImgAcc) with
          i := (⟨"text", 0, 0, 0, 0, 0, []⟩ : ImgAcc).i + 1 } :=
  claim10_empty_base64_skipped ⟨"original", 95⟩ "out/doc" 1
    ⟨some "", ⟨Except.ok [], Except.ok (), Except.ok ⟨"RGB", (1, 1)⟩,
      Except.ok (), Except.ok ()⟩⟩ [] ⟨"text", 0, 0, 0, 0, 0, []⟩ rfl

/-! ### Claims about process_batch -/

/-- C2 (corrected, counterexample): a batch with one successful file whose
single image failed processing has `total_images = 0` in the batch
summary, while the claim's sum `successful_images + failed_images` over
success-flagged files is `1`: the code sums `successful_images` only. -/
theorem claim2_cex :
    ∃ bs evs,
      process_batch ⟨"original", 95⟩ (Except.ok ())
          [⟨"doc.pdf", ⟨Except.ok 100, Except.ok (), Except.ok [1],
            Except.ok ⟨[⟨1, some "text",
              [⟨some "AAA=", ⟨Except.ok [0, 0], Except.ok (),
                Except.ok ⟨"RGB", (1, 1)⟩, Except.ok (), Except.ok ()⟩⟩]⟩]⟩,
            3, Except.ok ()⟩⟩] "out" 2 = Except.ok (bs, evs) ∧
        bs.total_images = 0 ∧
        ((bs.results.filter (fun r => r.success)).map
            (fun r => r.successful_images + r.failed_images)).sum = 1 ∧
        (0 : Nat) ≠ 1 :=
  ⟨_, _, rfl, rfl, rfl, by decide⟩

/-- C2 (amended): the `total_images` field of the batch summary equals the
sum of `successful_images` alone (not `successful_images + failed_images`)
over the result records whose `success` field is true. -/
theorem claim2_total_images_successful_only (cfg : HandlerConfig)
    (mkOut : Except PyErr Unit) (files : List BatchFile) (out : String)
    (delay : Nat) (bs : BatchSummary) (evs : List BatchEvent)
    (h : process_batch cfg mkOut files out delay = Except.ok (bs, evs)) :
    bs.total_images = ((bs.results.filter (fun r => r.success)).map
      (fun r => r.successful_images)).sum := by
  cases hmk : mkOut with
  | error e => simp [process_batch, hmk] at h
  | ok u =>
    cases hb : batchLoop cfg out delay files with
    | error e => simp [process_batch, hmk, hb] at h
    | ok p =>
      obtain ⟨results, evs0⟩ := p
      simp only [process_batch, hmk, hb, Except.ok.injEq, Prod.mk.injEq] at h
      obtain ⟨h1, h2⟩ := h
      subst h1
      rfl

/-- C2 witness: the amended equation holds on the counterexample batch
(both sides are 0 there). -/
theorem claim2_witness :
    ∃ bs evs,
      process_batch ⟨"original", 95⟩ (Except.ok ())
          [⟨"doc.pdf", ⟨Except.ok 100, Except.ok (), Except.ok [1],
            Except.ok ⟨[⟨1, some "text",
              [⟨some "AAA=", ⟨Except.ok [0, 0], Except.ok (),
                Except.ok ⟨"RGB", (1, 1)⟩, Except.ok (), Except.ok ()⟩⟩]⟩]⟩,
            3, Except.ok ()⟩⟩] "out" 2 = Except.ok (bs, evs) ∧
        bs.total_images = ((bs.results.filter (fun r => r.success)).map
          (fun r => r.successful_images)).sum := by
  refine ⟨_, _, rfl, ?_⟩
  exact claim2_total_images_successful_only ⟨"original", 95⟩ (Except.ok ())
    [⟨"doc.pdf", ⟨Except.ok 100, Except.ok (), Except.ok [1],
      Except.ok ⟨[⟨1, some "text",
        [⟨some "AAA=", ⟨Except.ok [0, 0], Except.ok (),
          Except.ok ⟨"RGB", (1, 1)⟩, Except.ok (), Except.ok ()⟩⟩]⟩]⟩,
      3, Except.ok ()⟩⟩] "out" 2 _ _ rfl

theorem process_pdf_returns (cfg : HandlerConfig) (w : PdfWorld)
    (pdf_name output_dir : String)
    (h1 : ∃ n, w.statResult = Except.ok n) (h2 : w.mkdirResult = Except.ok ()) :
    process_pdf cfg w pdf_name output_dir =
      Except.ok (process_pdf_run cfg w pdf_name output_dir) := by
  obtain ⟨n, h1⟩ := h1
  simp only [process_pdf, h1, h2]

theorem seqTrace_sleep_count (delay : Nat) (ns : List String) :
    (seqTrace delay ns).countP isSlept = ns.length - 1 := by
  induction ns with
  | nil => rfl
  | cons a rest ih =>
    cases rest with
    | nil => rfl
    | cons b rs =>
      have hst : seqTrace delay (a :: b :: rs) =
          BatchEvent.processed a :: BatchEvent.slept delay :: seqTrace delay (b :: rs) := rfl
      rw [hst, List.countP_cons, List.countP_cons, ih]
      simp [isSlept]

theorem batchLoop_spec (cfg : HandlerConfig) (out : String) (delay : Nat)
    (files : List BatchFile)
    (h : ∀ f ∈ files, (∃ n, f.world.statResult = Except.ok n) ∧
      f.world.mkdirResult = Except.ok ()) :
    batchLoop cfg out delay files =
      Except.ok (files.map (fun f => (process_pdf_run cfg f.world f.name out).summary),
        seqTrace delay (files.map (fun f => f.name))) := by
  induction files with
  | nil => rfl
  | cons f rest ih =>
    have hf := h f (List.mem_cons_self f rest)
    have hpp := process_pdf_returns cfg f.world f.name out hf.1 hf.2
    have hrest := ih (fun x hx => h x (List.mem_cons_of_mem f hx))
    cases rest with
    | nil => simp [batchLoop, hpp, seqTrace]
    | cons g rs =>
      have hstep : batchLoop cfg out delay (f :: g :: rs) =
          (match process_pdf cfg f.world f.name out with
           | .error e => .error e
           | .ok run =>
             match batchLoop cfg out delay (g :: rs) with
             | .error e => .error e
             | .ok (rs2, evs) =>
               .ok (run.summary :: rs2,
                    BatchEvent.processed f.name :: BatchEvent.slept delay :: evs)) := rfl
      rw [hstep, hpp, hrest]
      rfl

/-- C9 (confirmed): provided every file's pre-`try` steps succeed (so no
`process_pdf` call raises), `process_batch` processes the files strictly
sequentially in input order — its results list is exactly the in-order map
of `process_pdf` over the inputs — and its event trace is
process, sleep, process, sleep, …, process: exactly `K - 1` inter-file
delays, one after every file except the last and none after the last. -/
theorem claim9_sequential_with_delays (cfg : HandlerConfig)
    (files : List BatchFile) (out : String) (delay : Nat)
    (hw : ∀ f ∈ files, (∃ n, f.world.statResult = Except.ok n) ∧
      f.world.mkdirResult = Except.ok ()) :
    process_batch cfg (Except.ok ()) files out delay =
        Except.ok
          (batchAggregate
            (files.map (fun f => (process_pdf_run cfg f.world f.name out).summary)),
           seqTrace delay (files.map (fun f => f.name))) ∧
      (batchAggregate
          (files.map (fun f => (process_pdf_run cfg f.world f.name out).summary))).results =
        files.map (fun f => (process_pdf_run cfg f.world f.name out).summary) ∧
      (seqTrace delay (files.map (fun f => f.name))).countP isSlept =
        files.length - 1 := by
  have hl := batchLoop_spec cfg out delay files hw
  refine ⟨?_, rfl, ?_⟩
  · simp only [process_batch, hl]
  · rw [seqTrace_sleep_count, List.length_map]

/-- C9 witness: a batch of three files with delay 2 yields the trace
process, sleep, process, sleep, process — exactly two delays. -/
theorem claim9_witness :
    (process_batch ⟨"original", 95⟩ (Except.ok ())
          [⟨"a.pdf", ⟨Except.ok 10, Except.ok (), Except.ok [1],
            Except.ok ⟨[]⟩, 1, Except.ok ()⟩⟩,
           ⟨"b.pdf", ⟨Except.ok 20, Except.ok (), Except.ok [2],
            Except.ok ⟨[]⟩, 1, Except.ok ()⟩⟩,
           ⟨"c.pdf", ⟨Except.ok 30, Except.ok (), Except.ok [3],
            Except.ok ⟨[]⟩, 1, Except.ok ()⟩⟩] "out" 2 =
        Except.ok
          (batchAggregate
            (([⟨"a.pdf", ⟨Except.ok 10, Except.ok (), Except.ok [1],
                Except.ok ⟨[]⟩, 1, Except.ok ()⟩⟩,
               ⟨"b.pdf", ⟨Except.ok 20, Except.ok (), Except.ok [2],
                Except.ok ⟨[]⟩, 1, Except.ok ()⟩⟩,
               ⟨"c.pdf", ⟨Except.ok 30, Except.ok (), Except.ok [3],
                Except.ok ⟨[]⟩, 1, Except.ok ()⟩⟩] : List BatchFile).map
              (fun f => (process_pdf_run ⟨"original", 95⟩ f.world f.name "out").summary)),
           seqTrace 2 ["a.pdf", "b.pdf", "c.pdf"]) ∧
        (seqTrace 2 ["a.pdf", "b.pdf", "c.pdf"]).countP isSlept = 3 - 1) ∧
      seqTrace 2 ["a.pdf", "b.pdf", "c.pdf"] =
        [BatchEvent.processed "a.pdf", BatchEvent.slept 2,
         BatchEvent.processed "b.pdf", BatchEvent.slept 2,
         BatchEvent.processed "c.pdf"] := by
  have hmain := claim9_sequential_with_delays ⟨"original", 95⟩
    [⟨"a.pdf", ⟨Except.ok 10, Except.ok (), Except.ok [1],
      Except.ok ⟨[]⟩, 1, Except.ok ()⟩⟩,
     ⟨"b.pdf", ⟨Except.ok 20, Except.ok (), Except.ok [2],
      Except.ok ⟨[]⟩, 1, Except.ok ()⟩⟩,
     ⟨"c.pdf", ⟨Except.ok 30, Except.ok (), Except.ok [3],
      Except.ok ⟨[]⟩, 1, Except.ok ()⟩⟩] "out" 2
    (by
      intro f hf
      simp only [List.mem_cons, List.not_mem_nil, or_false] at hf
      rcases hf with rfl | rfl | rfl
      · exact ⟨⟨10, rfl⟩, rfl⟩
      · exact ⟨⟨20, rfl⟩, rfl⟩
      · exact ⟨⟨30, rfl⟩, rfl⟩)
  exact ⟨⟨hmain.1, hmain.2.2⟩, rfl⟩

end PdfMd
